import Mathlib

/-!
Shallow embedding of the clock tree resolver and sequencer of
`src/rcc.rs` (`CFGR::freeze`), together with the frozen `Clocks`
snapshot.  The resolver part (lines 229-341 of the source) is a pure
computation over the builder state; every Rust `assert!` /
`unreachable!` is a fatal configuration error and is modelled as an
`Except` error.  The sequencer part (lines 343-421) only performs
register writes and status-flag spin waits; it is modelled as the list
of write/wait events it emits, in source order.  Machine integers are
`Nat` with an explicit `% 2 ^ 32` at the single place where u32
overflow can occur (`2 * sysclk`).
-/

namespace Rcc

/-- `const HSI: u32 = 16_000_000` (rcc.rs line 145). -/
def HSI : Nat := 16000000

/-- `const USB_PLL_FREQ: u32 = 96_000_000` (rcc.rs line 146). -/
def USB_PLL_FREQ : Nat := 96000000

/-- The u32 modulus; `2 * sysclk` in `freeze` is a u32 multiplication. -/
def U32_MOD : Nat := 2 ^ 32

/-- `enum ExternalHseType { Clock, Crystal }` (rcc.rs lines 148-151). -/
inductive ExternalHseType
  | clock
  | crystal
deriving DecidableEq

/-- The builder state of `struct CFGR` (rcc.rs lines 154-161): optional
external oscillator (type and frequency in Hz), the USB-PLL flag, and
the optional target frequencies. -/
structure CFGR where
  hse : Option (ExternalHseType × Nat)
  usb_pll : Bool
  hclk : Option Nat
  pclk1 : Option Nat
  pclk2 : Option Nat
  sysclk : Option Nat
deriving DecidableEq

/-- `CFGR::new` (rcc.rs lines 164-173): everything unset. -/
def CFGR.new : CFGR :=
  { hse := none, usb_pll := false, hclk := none, pclk1 := none
  , pclk2 := none, sysclk := none }

/-- Fatal configuration errors: each constructor corresponds to one
`assert!` or `unreachable!` site in `CFGR::freeze`.  (A Rust division
by zero also panics; in this model it surfaces through the ratio-zero
`unreachable!` arm of the following range match, which is the same
fatal outcome.) -/
inductive RccError
  | pllMulUnreachable
  | pllDivUnreachable
  | sysclkCeiling
  | hclkRatioUnreachable
  | hclkCeiling
  | pclk1RatioUnreachable
  | pclk1Ceiling
  | pclk2RatioUnreachable
  | pclk2Ceiling
deriving DecidableEq

instance {ε α : Type} [DecidableEq ε] [DecidableEq α] :
    DecidableEq (Except ε α) := fun x y =>
  match x, y with
  | .error a, .error b =>
    decidable_of_iff (a = b) ⟨fun h => by rw [h], fun h => by cases h; rfl⟩
  | .ok a, .ok b =>
    decidable_of_iff (a = b) ⟨fun h => by rw [h], fun h => by cases h; rfl⟩
  | .error _, .ok _ => isFalse fun h => Except.noConfusion h
  | .ok _, .error _ => isFalse fun h => Except.noConfusion h

/-- The oscillator type component of `self.hse` (rcc.rs lines 229-231:
`hse_type`). -/
def hseType (c : CFGR) : Option ExternalHseType := c.hse.map Prod.fst

/-- The oscillator frequency component of `self.hse` (rcc.rs lines
229-231: `hse_freq`). -/
def hseFreq (c : CFGR) : Option Nat := c.hse.map Prod.snd

/-- `let pll_in_freq = hse_freq.unwrap_or(HSI)` (rcc.rs line 232). -/
def pll_in_freq (c : CFGR) : Nat := (hseFreq c).getD HSI

/-- `let pll_freq = if self.usb_pll { USB_PLL_FREQ } else
{ 2 * self.sysclk.unwrap_or(hse_freq.unwrap_or(HSI)) }`
(rcc.rs lines 233-237).  The multiplication is a u32 multiplication,
hence the `% U32_MOD`. -/
def pll_freq (c : CFGR) : Nat :=
  if c.usb_pll then USB_PLL_FREQ
  else (2 * c.sysclk.getD ((hseFreq c).getD HSI)) % U32_MOD

/-- `let sysclk_freq = self.sysclk.unwrap_or(...)` with the three
frequency bands `>96MHz -> /4`, `>64MHz -> /3`, else `/2`
(rcc.rs lines 239-245). -/
def sysclk_freq (c : CFGR) : Nat :=
  c.sysclk.getD
    (if 96000000 < pll_freq c then pll_freq c / 4
     else if 64000000 < pll_freq c then pll_freq c / 3
     else pll_freq c / 2)

/-- `let pll_mul = pll_freq / pll_in_freq` (rcc.rs line 247). -/
def pll_mul (c : CFGR) : Nat := pll_freq c / pll_in_freq c

/-- `let pll_div = pll_freq / sysclk_freq` (rcc.rs line 248). -/
def pll_div (c : CFGR) : Nat := pll_freq c / sysclk_freq c

/-- The `match pll_mul` register-bit table (rcc.rs lines 253-264);
`none` is the `_ => unreachable!()` arm. -/
def pllMulBits (m : Nat) : Option Nat :=
  if m = 3 then some 0
  else if m = 4 then some 1
  else if m = 6 then some 2
  else if m = 8 then some 3
  else if m = 12 then some 4
  else if m = 16 then some 5
  else if m = 24 then some 6
  else if m = 32 then some 7
  else if m = 48 then some 8
  else none

/-- The `match pll_div` arm `m @ 2..=4 => m as u8 - 1` (rcc.rs lines
265-268); `none` is the `_ => unreachable!()` arm. -/
def pllDivBits (d : Nat) : Option Nat :=
  if 2 ≤ d ∧ d ≤ 4 then some (d - 1) else none

/-- `let pll_mul_div_bits = if pll_mul == 2 && pll_div == 2 &&
!self.usb_pll { None } else { Some((mul, div)) }` (rcc.rs lines
250-270), with the two `unreachable!()` arms as fatal errors. -/
def pll_mul_div_bitsE (c : CFGR) : Except RccError (Option (Nat × Nat)) :=
  if pll_mul c = 2 ∧ pll_div c = 2 ∧ c.usb_pll = false then .ok none
  else
    match pllMulBits (pll_mul c) with
    | none => .error .pllMulUnreachable
    | some mb =>
      match pllDivBits (pll_div c) with
      | none => .error .pllDivUnreachable
      | some db => .ok (some (mb, db))

/-- The recurring `match hse_type { Some(Clock) => assert!(f <= 32MHz),
Some(Crystal) => assert!(f <= 24MHz), _ => {} }` ceiling check
(rcc.rs lines 272-276, 295-299, 316-320, 337-341). -/
def checkCeiling (t : Option ExternalHseType) (f : Nat) (e : RccError) :
    Except RccError Unit :=
  match t with
  | some .clock => if f ≤ 32000000 then .ok () else .error e
  | some .crystal => if f ≤ 24000000 then .ok () else .error e
  | none => .ok ()

/-- The AHB prescaler range table, `match sysclk_freq / hclk`
(rcc.rs lines 280-291), on a nonzero ratio. -/
def hpreBits (r : Nat) : Nat :=
  if r = 1 then 7
  else if r = 2 then 8
  else if r ≤ 5 then 9
  else if r ≤ 11 then 10
  else if r ≤ 39 then 11
  else if r ≤ 95 then 12
  else if r ≤ 191 then 13
  else if r ≤ 383 then 14
  else 15

/-- The APB prescaler range table, `match hclk / pclk`
(rcc.rs lines 303-310 and 324-331), on a nonzero ratio. -/
def ppreBits (r : Nat) : Nat :=
  if r = 1 then 3
  else if r = 2 then 4
  else if r ≤ 5 then 5
  else if r ≤ 11 then 6
  else 7

/-- `let hpre_bits = self.hclk.map(...).unwrap_or(0b0111)`
(rcc.rs lines 278-292); the ratio-`0` arm is `unreachable!()`.
(When the requested `hclk` is `0` the Rust division itself panics;
both paths are the same fatal outcome.) -/
def hpre_bitsE (c : CFGR) : Except RccError Nat :=
  match c.hclk with
  | none => .ok 7
  | some h =>
    if sysclk_freq c / h = 0 then .error .hclkRatioUnreachable
    else .ok (hpreBits (sysclk_freq c / h))

/-- `let ppre1_bits = self.pclk1.map(...).unwrap_or(0b011)`
(rcc.rs lines 301-311); the ratio-`0` arm is `unreachable!()`. -/
def ppre1_bitsE (c : CFGR) (hclk : Nat) : Except RccError Nat :=
  match c.pclk1 with
  | none => .ok 3
  | some p =>
    if hclk / p = 0 then .error .pclk1RatioUnreachable
    else .ok (ppreBits (hclk / p))

/-- `let ppre2_bits = self.pclk2.map(...).unwrap_or(0b011)`
(rcc.rs lines 322-332); the ratio-`0` arm is `unreachable!()`. -/
def ppre2_bitsE (c : CFGR) (hclk : Nat) : Except RccError Nat :=
  match c.pclk2 with
  | none => .ok 3
  | some p =>
    if hclk / p = 0 then .error .pclk2RatioUnreachable
    else .ok (ppreBits (hclk / p))

/-- All values derived by the resolver half of `CFGR::freeze`
(rcc.rs lines 229-351): the PLL chain, the prescaler codes and ratios,
the derived bus frequencies, and the flash wait-state flag.  `latency`
is the bit written to `ACR` at lines 344-351: set exactly when the
final system clock exceeds 16 MHz. -/
structure Resolved where
  pll_in_freq : Nat
  pll_freq : Nat
  sysclk_freq : Nat
  pll_mul : Nat
  pll_div : Nat
  pll_mul_div_bits : Option (Nat × Nat)
  hpre_bits : Nat
  hclk : Nat
  ppre1_bits : Nat
  ppre1 : Nat
  pclk1 : Nat
  ppre2_bits : Nat
  ppre2 : Nat
  pclk2 : Nat
  latency : Bool
deriving DecidableEq

/-- The resolver half of `CFGR::freeze` (rcc.rs lines 229-351), in
source order: PLL mul/div bits (lines 250-270), sysclk ceiling check
(272-276), AHB prescaler (278-292), `hclk = sysclk_freq >> (hpre_bits -
0b0111)` (line 294, written here as division by `2 ^ _`), hclk ceiling
(295-299), APB1 prescaler and `pclk1` (301-314), pclk1 ceiling
(316-320), APB2 prescaler and `pclk2` (322-335), pclk2 ceiling
(337-341), and the flash wait-state flag (344-351). -/
def resolve (c : CFGR) : Except RccError Resolved :=
  match pll_mul_div_bitsE c with
  | .error e => .error e
  | .ok bits =>
    match checkCeiling (hseType c) (sysclk_freq c) .sysclkCeiling with
    | .error e => .error e
    | .ok _ =>
      match hpre_bitsE c with
      | .error e => .error e
      | .ok hb =>
        match checkCeiling (hseType c) (sysclk_freq c / 2 ^ (hb - 7)) .hclkCeiling with
        | .error e => .error e
        | .ok _ =>
          match ppre1_bitsE c (sysclk_freq c / 2 ^ (hb - 7)) with
          | .error e => .error e
          | .ok p1b =>
            match checkCeiling (hseType c)
                (sysclk_freq c / 2 ^ (hb - 7) / 2 ^ (p1b - 3)) .pclk1Ceiling with
            | .error e => .error e
            | .ok _ =>
              match ppre2_bitsE c (sysclk_freq c / 2 ^ (hb - 7)) with
              | .error e => .error e
              | .ok p2b =>
                match checkCeiling (hseType c)
                    (sysclk_freq c / 2 ^ (hb - 7) / 2 ^ (p2b - 3)) .pclk2Ceiling with
                | .error e => .error e
                | .ok _ =>
                  .ok
                    { pll_in_freq := pll_in_freq c
                    , pll_freq := pll_freq c
                    , sysclk_freq := sysclk_freq c
                    , pll_mul := pll_mul c
                    , pll_div := pll_div c
                    , pll_mul_div_bits := bits
                    , hpre_bits := hb
                    , hclk := sysclk_freq c / 2 ^ (hb - 7)
                    , ppre1_bits := p1b
                    , ppre1 := 2 ^ (p1b - 3)
                    , pclk1 := sysclk_freq c / 2 ^ (hb - 7) / 2 ^ (p1b - 3)
                    , ppre2_bits := p2b
                    , ppre2 := 2 ^ (p2b - 3)
                    , pclk2 := sysclk_freq c / 2 ^ (hb - 7) / 2 ^ (p2b - 3)
                    , latency := decide (16000000 < sysclk_freq c) }

/-- One register write or status-flag spin-wait performed by the
sequencer half of `CFGR::freeze` (rcc.rs lines 343-421).  A `writeCr`
carries the value written to each of the `PLLON`, `HSI16ON`, `HSEON`
fields; `none` means the field was not named in that `write` call (the
hardware then takes the register's reset value for it). -/
inductive Event
  | writeAcr (latency : Bool)
  | writeCr (pllon hsi16on hseon : Option Bool)
  | waitPllNotReady
  | writeCfgrPll (pllmul plldiv : Nat) (pllsrc : Bool)
  | waitHseReady
  | waitHsi16Ready
  | waitPllReady
  | modifyCfgrSw (ppre2 ppre1 hpre sw : Nat)
  | writeCfgrSw (ppre2 ppre1 hpre sw : Nat)
deriving DecidableEq

/-- `true` for the write to the flash `ACR` register, `false` for
clock-control (`RCC`) register writes and for spin-waits. -/
def isFlashWrite : Event → Bool
  | .writeAcr _ => true
  | _ => false

/-- `true` for writes to the clock-control (`RCC`) registers. -/
def isClockCtrlWrite : Event → Bool
  | .writeCr _ _ _ => true
  | .writeCfgrPll _ _ _ => true
  | .modifyCfgrSw _ _ _ _ => true
  | .writeCfgrSw _ _ _ _ => true
  | _ => false

/-- `true` for a `CR` write whose `HSI16ON` field is explicitly written
`0`, i.e. a write that disables the internal oscillator. -/
def disablesHsi : Event → Bool
  | .writeCr _ (some false) _ => true
  | _ => false

/-- `true` for the spin-wait on the external oscillator's ready flag
(`while !rcc.cr.read().hserdy().bit() {}`). -/
def isWaitHseReady : Event → Bool
  | .waitHseReady => true
  | _ => false

/-- Scans an event list in order; `seen` records whether the external
oscillator's ready flag has already been confirmed.  Returns `true`
exactly when every write disabling the internal oscillator occurs
after that confirmation — the discipline claim C6 asserts of the
sequencer. -/
def hsiKeptUntilHseReady (seen : Bool) : List Event → Bool
  | [] => true
  | e :: rest =>
    (!disablesHsi e || seen) &&
      hsiKeptUntilHseReady (seen || isWaitHseReady e) rest

/-- The write/wait trace of the sequencer half of `CFGR::freeze`
(rcc.rs lines 343-421), in source order.  First the `ACR` (flash
wait-state) write (lines 344-351); then either the PLL branch (lines
359-399: disable PLL, wait not-ready, program PLL mul/div/src, enable
PLL with `hsi16on = !hse_en` and `hseon = hse_en`, wait for the chosen
oscillator then the PLL, finally `modify` the prescalers and
`SW = 0b11`) or the bypass branch (lines 400-421: write `CR` with
`hsi16on = !hse_en`, `hseon = hse_en`, wait for the oscillator, write
the prescalers and `SW`). -/
def sequencerTrace (c : CFGR) (r : Resolved) : List Event :=
  Event.writeAcr r.latency ::
    match r.pll_mul_div_bits with
    | some (mulBits, divBits) =>
      Event.writeCr (some false) none none ::
      Event.waitPllNotReady ::
      Event.writeCfgrPll mulBits divBits c.hse.isSome ::
      Event.writeCr (some true) (some (!c.hse.isSome)) (some c.hse.isSome) ::
      (if c.hse.isSome then Event.waitHseReady else Event.waitHsi16Ready) ::
      Event.waitPllReady ::
      [Event.modifyCfgrSw r.ppre2_bits r.ppre1_bits r.hpre_bits 3]
    | none =>
      Event.writeCr none (some (!c.hse.isSome)) (some c.hse.isSome) ::
      (if c.hse.isSome then Event.waitHseReady else Event.waitHsi16Ready) ::
      [Event.writeCfgrSw r.ppre2_bits r.ppre1_bits r.hpre_bits
        (if c.hse.isSome then 2 else 1)]

/-- `struct Clocks` (rcc.rs lines 437-445): the frozen snapshot.
Frequencies are in Hz; `ppre1` / `ppre2` are the APB prescaler ratios
(not register codes). -/
structure Clocks where
  hclk : Nat
  pclk1 : Nat
  pclk2 : Nat
  ppre1 : Nat
  ppre2 : Nat
  sysclk : Nat
deriving DecidableEq

/-- The getter `Clocks::hclk` (rcc.rs lines 449-451). -/
def Clocks.hclkGet (c : Clocks) : Nat := c.hclk

/-- The getter `Clocks::pclk1` (rcc.rs lines 454-456). -/
def Clocks.pclk1Get (c : Clocks) : Nat := c.pclk1

/-- The getter `Clocks::pclk2` (rcc.rs lines 459-461). -/
def Clocks.pclk2Get (c : Clocks) : Nat := c.pclk2

/-- The getter `Clocks::ppre1` (rcc.rs lines 463-465). -/
def Clocks.ppre1Get (c : Clocks) : Nat := c.ppre1

/-- The getter `Clocks::ppre2` (rcc.rs lines 467-469). -/
def Clocks.ppre2Get (c : Clocks) : Nat := c.ppre2

/-- The getter `Clocks::sysclk` (rcc.rs lines 472-474). -/
def Clocks.sysclkGet (c : Clocks) : Nat := c.sysclk

/-- The `Clocks` value `CFGR::freeze` returns (rcc.rs lines 423-430),
built from the resolved tree. -/
def mkClocks (r : Resolved) : Clocks :=
  { hclk := r.hclk, pclk1 := r.pclk1, pclk2 := r.pclk2
  , ppre1 := r.ppre1, ppre2 := r.ppre2, sysclk := r.sysclk_freq }

/-- `CFGR::freeze` as a whole: the trace of hardware writes/waits it
performs paired with its outcome.  Every fatal site (each `assert!` and
`unreachable!`) textually precedes the first hardware write (the `ACR`
write at line 344), so a fatal run emits no events. -/
def freezeTr (c : CFGR) : List Event × Except RccError Clocks :=
  match resolve c with
  | .error e => ([], .error e)
  | .ok r => (sequencerTrace c r, .ok (mkClocks r))

/-- Observer: the resolved system clock frequency, when resolution
succeeds. -/
def sysclkOf (x : Except RccError Resolved) : Option Nat :=
  match x with
  | .ok r => some r.sysclk_freq
  | .error _ => none

/-- Observer: the resolved AHB frequency. -/
def hclkOf (x : Except RccError Resolved) : Option Nat :=
  match x with
  | .ok r => some r.hclk
  | .error _ => none

/-- Observer: the resolved APB1 prescaler ratio. -/
def ppre1Of (x : Except RccError Resolved) : Option Nat :=
  match x with
  | .ok r => some r.ppre1
  | .error _ => none

/-- Observer: the resolved PLL multiply factor. -/
def mulOf (x : Except RccError Resolved) : Option Nat :=
  match x with
  | .ok r => some r.pll_mul
  | .error _ => none

/-- Observer: the resolved PLL divide factor. -/
def divOf (x : Except RccError Resolved) : Option Nat :=
  match x with
  | .ok r => some r.pll_div
  | .error _ => none

/-- Observer: did resolution fail? -/
def isErr (x : Except RccError Resolved) : Bool :=
  match x with
  | .ok _ => false
  | .error _ => true

/-- Scenario B of the spec: external crystal at 8 MHz, requested system
clock 32 MHz. -/
def scenB : CFGR :=
  { hse := some (.crystal, 8000000), usb_pll := false, hclk := none
  , pclk1 := none, pclk2 := none, sysclk := some 32000000 }

/-- Scenario C of the spec: external clock signal at 8 MHz, requested
system clock 32 MHz. -/
def scenC : CFGR :=
  { hse := some (.clock, 8000000), usb_pll := false, hclk := none
  , pclk1 := none, pclk2 := none, sysclk := some 32000000 }

/-- Internal oscillator with a requested 48 MHz system clock: a
configuration above both external ceilings that is nevertheless
accepted, because no ceiling applies to the internal oscillator. -/
def int48 : CFGR :=
  { hse := none, usb_pll := false, hclk := none
  , pclk1 := none, pclk2 := none, sysclk := some 48000000 }

/-- Internal oscillator, system clock 32 MHz, requested APB1 target
20 MHz: the integer ratio `32MHz / 20MHz` is `1`, so the code chooses
the divide-by-1 bucket even though `32MHz / 1` exceeds the target. -/
def c2cex : CFGR :=
  { hse := none, usb_pll := false, hclk := none
  , pclk1 := some 20000000, pclk2 := none, sysclk := some 32000000 }

/-- Scenario D of the spec: an APB1 target making `hclk / pclk1 = 7`
(32 MHz / 4571428 Hz rounds to 7), which must select the divide-by-8
bucket. -/
def scenD : CFGR :=
  { hse := none, usb_pll := false, hclk := none
  , pclk1 := some 4571428, pclk2 := none, sysclk := some 32000000 }

/-- Internal oscillator with a requested 32 MHz system clock;
base configuration for the monotonicity counterexample. -/
def c7base : CFGR :=
  { hse := none, usb_pll := false, hclk := none
  , pclk1 := none, pclk2 := none, sysclk := some 32000000 }

/-- A requested system clock of `2^31` Hz: `2 * sysclk` overflows u32,
so the computed PLL frequency is `0`, not `2^32`. -/
def c4big : CFGR :=
  { hse := none, usb_pll := false, hclk := none
  , pclk1 := none, pclk2 := none, sysclk := some (2 ^ 31) }

/-- Follows the spec's words (resolver step 1): PLL input frequency =
external oscillator frequency if present, else internal fixed
oscillator frequency.  Stated separately from `pll_in_freq` so the two
can be compared. -/
def specPllIn (c : CFGR) : Nat :=
  match c.hse with
  | some (_, f) => f
  | none => HSI

/-- Follows the claim's words (resolver step 2) in unbounded
arithmetic: PLL output target = the fixed alternate high-frequency
target if requested, else 2 times the requested system clock (or 2
times the PLL input if no system clock was requested). -/
def specPllTarget (c : CFGR) : Nat :=
  if c.usb_pll then USB_PLL_FREQ
  else
    match c.sysclk with
    | some s => 2 * s
    | none => 2 * specPllIn c

/-- Resolver step 2 as a 32-bit program computes it: the doubling is
reduced modulo `2 ^ 32`. -/
def specPllTargetU32 (c : CFGR) : Nat := specPllTarget c % U32_MOD

/-- Follows the spec's words (resolver step 3): system clock =
requested system clock if given, else derived from the PLL output by
the band `>96MHz -> /4`, `>64MHz -> /3`, else `/2`. -/
def specSysclk (c : CFGR) : Nat :=
  match c.sysclk with
  | some s => s
  | none =>
    if 96000000 < specPllTargetU32 c then specPllTargetU32 c / 4
    else if 64000000 < specPllTargetU32 c then specPllTargetU32 c / 3
    else specPllTargetU32 c / 2

/-- The resolved tree for Scenario C (see the evaluation of
`resolve scenC`): PLL input 8 MHz, PLL output 64 MHz, multiply 8,
divide 2, everything else at the 32 MHz system clock. -/
def scenCRes : Resolved :=
  { pll_in_freq := 8000000, pll_freq := 64000000, sysclk_freq := 32000000
  , pll_mul := 8, pll_div := 2, pll_mul_div_bits := some (3, 1)
  , hpre_bits := 7, hclk := 32000000, ppre1_bits := 3, ppre1 := 1
  , pclk1 := 32000000, ppre2_bits := 3, ppre2 := 1, pclk2 := 32000000
  , latency := true }

/-- The resolved tree for Scenario D: the `hclk / pclk1` ratio of 7
lands in the `6..=11` bucket, so `ppre1 = 8` and `pclk1 = 4 MHz`. -/
def scenDRes : Resolved :=
  { pll_in_freq := 16000000, pll_freq := 64000000, sysclk_freq := 32000000
  , pll_mul := 4, pll_div := 2, pll_mul_div_bits := some (1, 1)
  , hpre_bits := 7, hclk := 32000000, ppre1_bits := 6, ppre1 := 8
  , pclk1 := 4000000, ppre2_bits := 3, ppre2 := 1, pclk2 := 32000000
  , latency := true }

/-- The resolved tree for `c7base` with APB1 target 16 MHz: ratio 2,
prescaler ratio 2. -/
def c7loRes : Resolved :=
  { pll_in_freq := 16000000, pll_freq := 64000000, sysclk_freq := 32000000
  , pll_mul := 4, pll_div := 2, pll_mul_div_bits := some (1, 1)
  , hpre_bits := 7, hclk := 32000000, ppre1_bits := 4, ppre1 := 2
  , pclk1 := 16000000, ppre2_bits := 3, ppre2 := 1, pclk2 := 32000000
  , latency := true }

/-- The resolved tree for `c7base` with APB1 target 32 MHz: ratio 1,
prescaler ratio 1. -/
def c7hiRes : Resolved :=
  { pll_in_freq := 16000000, pll_freq := 64000000, sysclk_freq := 32000000
  , pll_mul := 4, pll_div := 2, pll_mul_div_bits := some (1, 1)
  , hpre_bits := 7, hclk := 32000000, ppre1_bits := 3, ppre1 := 1
  , pclk1 := 32000000, ppre2_bits := 3, ppre2 := 1, pclk2 := 32000000
  , latency := true }

/-- The snapshot produced by freezing the default configuration:
everything at the internal oscillator's 16 MHz, prescaler ratios 1. -/
def defClocks : Clocks :=
  { hclk := 16000000, pclk1 := 16000000, pclk2 := 16000000
  , ppre1 := 1, ppre2 := 1, sysclk := 16000000 }

theorem checkCeiling_clock {f : Nat} {e : RccError}
    (h : checkCeiling (some .clock) f e = .ok ()) : f ≤ 32000000 := by
  by_cases hf : f ≤ 32000000
  · exact hf
  · simp [checkCeiling, hf] at h

theorem checkCeiling_crystal {f : Nat} {e : RccError}
    (h : checkCeiling (some .crystal) f e = .ok ()) : f ≤ 24000000 := by
  by_cases hf : f ≤ 24000000
  · exact hf
  · simp [checkCeiling, hf] at h

theorem ppreBits_bounds (r : Nat) : 3 ≤ ppreBits r ∧ ppreBits r ≤ 7 := by
  unfold ppreBits; split_ifs <;> omega

theorem hpreBits_bounds (r : Nat) : 7 ≤ hpreBits r ∧ hpreBits r ≤ 15 := by
  unfold hpreBits; split_ifs <;> omega

theorem ppreBits_mono {a b : Nat} (ha : 1 ≤ a) (h : a ≤ b) :
    ppreBits a ≤ ppreBits b := by
  unfold ppreBits; split_ifs <;> omega

set_option maxHeartbeats 1000000 in
theorem hpreBits_mono {a b : Nat} (ha : 1 ≤ a) (h : a ≤ b) :
    hpreBits a ≤ hpreBits b := by
  unfold hpreBits; split_ifs <;> omega

theorem hpreBits_spec (x : Nat) :
    (x = 1 → hpreBits x = 7) ∧ (x = 2 → hpreBits x = 8) ∧
    (3 ≤ x ∧ x ≤ 5 → hpreBits x = 9) ∧ (6 ≤ x ∧ x ≤ 11 → hpreBits x = 10) ∧
    (12 ≤ x ∧ x ≤ 39 → hpreBits x = 11) ∧
    (40 ≤ x ∧ x ≤ 95 → hpreBits x = 12) ∧
    (96 ≤ x ∧ x ≤ 191 → hpreBits x = 13) ∧
    (192 ≤ x ∧ x ≤ 383 → hpreBits x = 14) ∧
    (384 ≤ x → hpreBits x = 15) := by
  unfold hpreBits; split_ifs <;> omega

theorem ppreBits_spec (x : Nat) :
    (x = 1 → ppreBits x = 3) ∧ (x = 2 → ppreBits x = 4) ∧
    (3 ≤ x ∧ x ≤ 5 → ppreBits x = 5) ∧ (6 ≤ x ∧ x ≤ 11 → ppreBits x = 6) ∧
    (12 ≤ x → ppreBits x = 7) := by
  unfold ppreBits; split_ifs <;> omega

theorem pow_ppre_mem {b : Nat} (h3 : 3 ≤ b) (h7 : b ≤ 7) :
    2 ^ (b - 3) = 1 ∨ 2 ^ (b - 3) = 2 ∨ 2 ^ (b - 3) = 4 ∨
    2 ^ (b - 3) = 8 ∨ 2 ^ (b - 3) = 16 := by
  interval_cases b <;> norm_num

theorem pllMulBits_some {m x : Nat} (h : pllMulBits m = some x) :
    m = 3 ∨ m = 4 ∨ m = 6 ∨ m = 8 ∨ m = 12 ∨ m = 16 ∨ m = 24 ∨ m = 32 ∨
      m = 48 := by
  unfold pllMulBits at h
  split_ifs at h with h1 h2 h3 h4 h5 h6 h7 h8 h9 <;> omega

theorem pllDivBits_some {d x : Nat} (h : pllDivBits d = some x) :
    2 ≤ d ∧ d ≤ 4 := by
  unfold pllDivBits at h
  split_ifs at h with hd
  exact hd

theorem bitsE_ok_none_iff {c : CFGR} :
    pll_mul_div_bitsE c = .ok none ↔
      pll_mul c = 2 ∧ pll_div c = 2 ∧ c.usb_pll = false := by
  constructor
  · intro h
    unfold pll_mul_div_bitsE at h
    split_ifs at h with hc
    · exact hc
    · split at h
      next => exact absurd h (by simp)
      next mb hm =>
        split at h
        next => exact absurd h (by simp)
        next db hd => simp at h
  · intro hc
    unfold pll_mul_div_bitsE
    rw [if_pos hc]

theorem bitsE_ok_some {c : CFGR} {mb db : Nat}
    (h : pll_mul_div_bitsE c = .ok (some (mb, db))) :
    pllMulBits (pll_mul c) = some mb ∧ pllDivBits (pll_div c) = some db := by
  unfold pll_mul_div_bitsE at h
  split_ifs at h with hc
  · simp at h
  · split at h
    next => exact absurd h (by simp)
    next mb' hm =>
      split at h
      next => exact absurd h (by simp)
      next db' hd =>
        simp only [Except.ok.injEq, Option.some.injEq, Prod.mk.injEq] at h
        exact ⟨h.1 ▸ hm, h.2 ▸ hd⟩

theorem bitsE_err_mul {c : CFGR}
    (hc : ¬(pll_mul c = 2 ∧ pll_div c = 2 ∧ c.usb_pll = false))
    (hm : pllMulBits (pll_mul c) = none) :
    resolve c = .error .pllMulUnreachable := by
  have hb : pll_mul_div_bitsE c = .error .pllMulUnreachable := by
    unfold pll_mul_div_bitsE
    rw [if_neg hc, hm]
  unfold resolve
  rw [hb]

theorem bitsE_err_div {c : CFGR} {mb : Nat}
    (hc : ¬(pll_mul c = 2 ∧ pll_div c = 2 ∧ c.usb_pll = false))
    (hm : pllMulBits (pll_mul c) = some mb)
    (hd : pllDivBits (pll_div c) = none) :
    resolve c = .error .pllDivUnreachable := by
  have hb : pll_mul_div_bitsE c = .error .pllDivUnreachable := by
    unfold pll_mul_div_bitsE
    rw [if_neg hc, hm, hd]
  unfold resolve
  rw [hb]

theorem hpre_bitsE_none {c : CFGR} {b : Nat} (hh : c.hclk = none)
    (h : hpre_bitsE c = .ok b) : b = 7 := by
  simp only [hpre_bitsE, hh, Except.ok.injEq] at h
  omega

theorem hpre_bitsE_some {c : CFGR} {t b : Nat} (hh : c.hclk = some t)
    (h : hpre_bitsE c = .ok b) :
    sysclk_freq c / t ≠ 0 ∧ b = hpreBits (sysclk_freq c / t) := by
  simp only [hpre_bitsE, hh] at h
  split_ifs at h with h0
  simp only [Except.ok.injEq] at h
  exact ⟨h0, h.symm⟩

theorem ppre1_bitsE_none {c : CFGR} {hclk b : Nat} (hh : c.pclk1 = none)
    (h : ppre1_bitsE c hclk = .ok b) : b = 3 := by
  simp only [ppre1_bitsE, hh, Except.ok.injEq] at h
  omega

theorem ppre1_bitsE_some {c : CFGR} {hclk t b : Nat} (hh : c.pclk1 = some t)
    (h : ppre1_bitsE c hclk = .ok b) :
    hclk / t ≠ 0 ∧ b = ppreBits (hclk / t) := by
  simp only [ppre1_bitsE, hh] at h
  split_ifs at h with h0
  simp only [Except.ok.injEq] at h
  exact ⟨h0, h.symm⟩

theorem ppre2_bitsE_none {c : CFGR} {hclk b : Nat} (hh : c.pclk2 = none)
    (h : ppre2_bitsE c hclk = .ok b) : b = 3 := by
  simp only [ppre2_bitsE, hh, Except.ok.injEq] at h
  omega

theorem ppre2_bitsE_some {c : CFGR} {hclk t b : Nat} (hh : c.pclk2 = some t)
    (h : ppre2_bitsE c hclk = .ok b) :
    hclk / t ≠ 0 ∧ b = ppreBits (hclk / t) := by
  simp only [ppre2_bitsE, hh] at h
  split_ifs at h with h0
  simp only [Except.ok.injEq] at h
  exact ⟨h0, h.symm⟩

theorem hpre_bitsE_ok_bounds {c : CFGR} {b : Nat} (h : hpre_bitsE c = .ok b) :
    7 ≤ b ∧ b ≤ 15 := by
  cases hh : c.hclk with
  | none => have := hpre_bitsE_none hh h; omega
  | some t =>
    obtain ⟨-, hb⟩ := hpre_bitsE_some hh h
    exact hb ▸ hpreBits_bounds _

theorem ppre1_bitsE_ok_bounds {c : CFGR} {hclk b : Nat}
    (h : ppre1_bitsE c hclk = .ok b) : 3 ≤ b ∧ b ≤ 7 := by
  cases hh : c.pclk1 with
  | none => have := ppre1_bitsE_none hh h; omega
  | some t =>
    obtain ⟨-, hb⟩ := ppre1_bitsE_some hh h
    exact hb ▸ ppreBits_bounds _

theorem ppre2_bitsE_ok_bounds {c : CFGR} {hclk b : Nat}
    (h : ppre2_bitsE c hclk = .ok b) : 3 ≤ b ∧ b ≤ 7 := by
  cases hh : c.pclk2 with
  | none => have := ppre2_bitsE_none hh h; omega
  | some t =>
    obtain ⟨-, hb⟩ := ppre2_bitsE_some hh h
    exact hb ▸ ppreBits_bounds _

/-- Master inversion lemma for `resolve`: everything a successful
resolution guarantees, field by field and check by check. -/
theorem resolve_ok {c : CFGR} {r : Resolved} (h : resolve c = .ok r) :
    pll_mul_div_bitsE c = .ok r.pll_mul_div_bits ∧
    hpre_bitsE c = .ok r.hpre_bits ∧
    ppre1_bitsE c r.hclk = .ok r.ppre1_bits ∧
    ppre2_bitsE c r.hclk = .ok r.ppre2_bits ∧
    checkCeiling (hseType c) r.sysclk_freq .sysclkCeiling = .ok () ∧
    checkCeiling (hseType c) r.hclk .hclkCeiling = .ok () ∧
    checkCeiling (hseType c) r.pclk1 .pclk1Ceiling = .ok () ∧
    checkCeiling (hseType c) r.pclk2 .pclk2Ceiling = .ok () ∧
    r.pll_in_freq = pll_in_freq c ∧
    r.pll_freq = pll_freq c ∧
    r.sysclk_freq = sysclk_freq c ∧
    r.pll_mul = pll_mul c ∧
    r.pll_div = pll_div c ∧
    r.hclk = sysclk_freq c / 2 ^ (r.hpre_bits - 7) ∧
    r.ppre1 = 2 ^ (r.ppre1_bits - 3) ∧
    r.pclk1 = r.hclk / r.ppre1 ∧
    r.ppre2 = 2 ^ (r.ppre2_bits - 3) ∧
    r.pclk2 = r.hclk / r.ppre2 ∧
    r.latency = decide (16000000 < r.sysclk_freq) := by
  unfold resolve at h
  split at h
  next => exact Except.noConfusion h
  next bits hbits =>
  split at h
  next => exact Except.noConfusion h
  next u1 hck1 =>
  cases u1
  split at h
  next => exact Except.noConfusion h
  next hb hhb =>
  split at h
  next => exact Except.noConfusion h
  next u2 hck2 =>
  cases u2
  split at h
  next => exact Except.noConfusion h
  next p1b hp1 =>
  split at h
  next => exact Except.noConfusion h
  next u3 hck3 =>
  cases u3
  split at h
  next => exact Except.noConfusion h
  next p2b hp2 =>
  split at h
  next => exact Except.noConfusion h
  next u4 hck4 =>
  cases u4
  injection h with h
  subst h
  exact ⟨hbits, hhb, hp1, hp2, hck1, hck2, hck3, hck4, rfl, rfl, rfl, rfl,
    rfl, rfl, rfl, rfl, rfl, rfl, rfl⟩

/-- Inversion lemma for `freezeTr`: a successful freeze comes from a
successful resolution, with the trace and the snapshot built from it. -/
theorem freezeTr_ok {c : CFGR} {evs : List Event} {cl : Clocks}
    (h : freezeTr c = (evs, .ok cl)) :
    ∃ r, resolve c = .ok r ∧ evs = sequencerTrace c r ∧ cl = mkClocks r := by
  unfold freezeTr at h
  cases hr : resolve c with
  | error e =>
    rw [hr] at h
    simp only [Prod.mk.injEq] at h
    exact Except.noConfusion h.2
  | ok r =>
    rw [hr] at h
    simp only [Prod.mk.injEq, Except.ok.injEq] at h
    exact ⟨r, rfl, h.1.symm, h.2.symm⟩

/-- Claim C1: whenever `freeze` completes without a fatal error, each
of the derived system clock, AHB, APB1 and APB2 frequencies is at most
32 MHz with an external clock signal and at most 24 MHz with an
external crystal; no such bound is checked for the internal oscillator
(witnessed by a 48 MHz internal configuration that is accepted); an
external crystal at 8 MHz with requested system clock 32 MHz is
rejected as fatal, while the same request with an external clock
signal is accepted with multiply 8 and divide 2. -/
theorem claim_C1 :
    (∀ (c : CFGR) (f : Nat) (r : Resolved),
      c.hse = some (ExternalHseType.clock, f) → resolve c = .ok r →
      r.sysclk_freq ≤ 32000000 ∧ r.hclk ≤ 32000000 ∧
      r.pclk1 ≤ 32000000 ∧ r.pclk2 ≤ 32000000) ∧
    (∀ (c : CFGR) (f : Nat) (r : Resolved),
      c.hse = some (ExternalHseType.crystal, f) → resolve c = .ok r →
      r.sysclk_freq ≤ 24000000 ∧ r.hclk ≤ 24000000 ∧
      r.pclk1 ≤ 24000000 ∧ r.pclk2 ≤ 24000000) ∧
    isErr (resolve scenB) = true ∧
    mulOf (resolve scenC) = some 8 ∧
    divOf (resolve scenC) = some 2 ∧
    isErr (resolve scenC) = false ∧
    sysclkOf (resolve int48) = some 48000000 := by
  refine ⟨?_, ?_, by decide, by decide, by decide, by decide, by decide⟩
  · intro c f r hhse h
    obtain ⟨-, -, -, -, hck1, hck2, hck3, hck4, -⟩ := resolve_ok h
    have ht : hseType c = some ExternalHseType.clock := by
      simp [hseType, hhse]
    rw [ht] at hck1 hck2 hck3 hck4
    exact ⟨checkCeiling_clock hck1, checkCeiling_clock hck2,
      checkCeiling_clock hck3, checkCeiling_clock hck4⟩
  · intro c f r hhse h
    obtain ⟨-, -, -, -, hck1, hck2, hck3, hck4, -⟩ := resolve_ok h
    have ht : hseType c = some ExternalHseType.crystal := by
      simp [hseType, hhse]
    rw [ht] at hck1 hck2 hck3 hck4
    exact ⟨checkCeiling_crystal hck1, checkCeiling_crystal hck2,
      checkCeiling_crystal hck3, checkCeiling_crystal hck4⟩

/-- Witness for C1: the external-clock ceiling bounds, instantiated at
Scenario C (clock signal 8 MHz, system clock 32 MHz). -/
theorem claim_C1_witness :
    scenCRes.sysclk_freq ≤ 32000000 ∧ scenCRes.hclk ≤ 32000000 ∧
    scenCRes.pclk1 ≤ 32000000 ∧ scenCRes.pclk2 ≤ 32000000 :=
  claim_C1.1 scenC 8000000 scenCRes (by decide) (by decide)

/-- Claim C3: in every successful resolution, the PLL is bypassed
exactly when multiply = 2, divide = 2 and the USB-PLL target was not
requested; when the PLL is enabled the multiply factor lies in
{3,4,6,8,12,16,24,32,48} and the divide factor in {2,3,4}; and a
multiply or divide factor outside these enumerations (outside the
bypass case) is a fatal error. -/
theorem claim_C3 :
    (∀ (c : CFGR) (r : Resolved), resolve c = .ok r →
      (r.pll_mul_div_bits = none ↔
        r.pll_mul = 2 ∧ r.pll_div = 2 ∧ c.usb_pll = false) ∧
      (∀ b, r.pll_mul_div_bits = some b →
        (r.pll_mul = 3 ∨ r.pll_mul = 4 ∨ r.pll_mul = 6 ∨ r.pll_mul = 8 ∨
         r.pll_mul = 12 ∨ r.pll_mul = 16 ∨ r.pll_mul = 24 ∨ r.pll_mul = 32 ∨
         r.pll_mul = 48) ∧
        (r.pll_div = 2 ∨ r.pll_div = 3 ∨ r.pll_div = 4))) ∧
    (∀ c : CFGR,
      ¬(pll_mul c = 2 ∧ pll_div c = 2 ∧ c.usb_pll = false) →
      ¬(pll_mul c = 3 ∨ pll_mul c = 4 ∨ pll_mul c = 6 ∨ pll_mul c = 8 ∨
        pll_mul c = 12 ∨ pll_mul c = 16 ∨ pll_mul c = 24 ∨ pll_mul c = 32 ∨
        pll_mul c = 48) →
      ∃ e, resolve c = .error e) ∧
    (∀ c : CFGR,
      ¬(pll_mul c = 2 ∧ pll_div c = 2 ∧ c.usb_pll = false) →
      ¬(pll_div c = 2 ∨ pll_div c = 3 ∨ pll_div c = 4) →
      ∃ e, resolve c = .error e) := by
  refine ⟨?_, ?_, ?_⟩
  · intro c r h
    obtain ⟨hbits, -, -, -, -, -, -, -, -, -, -, h12, h13, -⟩ := resolve_ok h
    constructor
    · constructor
      · intro hn
        rw [hn] at hbits
        have := bitsE_ok_none_iff.mp hbits
        exact ⟨h12 ▸ this.1, h13 ▸ this.2.1, this.2.2⟩
      · intro hcond
        cases hb : r.pll_mul_div_bits with
        | none => rfl
        | some md =>
          obtain ⟨mb, db⟩ := md
          rw [hb] at hbits
          obtain ⟨hm, -⟩ := bitsE_ok_some hbits
          rw [← h12, hcond.1] at hm
          exact absurd hm (by simp [pllMulBits])
    · intro b hb
      obtain ⟨mb, db⟩ := b
      rw [hb] at hbits
      obtain ⟨hm, hd⟩ := bitsE_ok_some hbits
      have hmul := pllMulBits_some hm
      have hdiv := pllDivBits_some hd
      rw [← h12] at hmul
      rw [← h13] at hdiv
      exact ⟨hmul, by omega⟩
  · intro c hnb hm
    have hmn : pllMulBits (pll_mul c) = none := by
      cases hx : pllMulBits (pll_mul c) with
      | none => rfl
      | some v => exact absurd (pllMulBits_some hx) hm
    exact ⟨_, bitsE_err_mul hnb hmn⟩
  · intro c hnb hd
    have hdn : pllDivBits (pll_div c) = none := by
      cases hx : pllDivBits (pll_div c) with
      | none => rfl
      | some v =>
        have := pllDivBits_some hx
        exact absurd (by omega) hd
    cases hx : pllMulBits (pll_mul c) with
    | none => exact ⟨_, bitsE_err_mul hnb hx⟩
    | some mb => exact ⟨_, bitsE_err_div hnb hx hdn⟩

/-- Witness for C3: the PLL invariants instantiated at Scenario C,
whose resolved tree has multiply 8 and divide 2. -/
theorem claim_C3_witness :
    (scenCRes.pll_mul_div_bits = none ↔
      scenCRes.pll_mul = 2 ∧ scenCRes.pll_div = 2 ∧ scenC.usb_pll = false) ∧
    (∀ b, scenCRes.pll_mul_div_bits = some b →
      (scenCRes.pll_mul = 3 ∨ scenCRes.pll_mul = 4 ∨ scenCRes.pll_mul = 6 ∨
       scenCRes.pll_mul = 8 ∨ scenCRes.pll_mul = 12 ∨ scenCRes.pll_mul = 16 ∨
       scenCRes.pll_mul = 24 ∨ scenCRes.pll_mul = 32 ∨
       scenCRes.pll_mul = 48) ∧
      (scenCRes.pll_div = 2 ∨ scenCRes.pll_div = 3 ∨ scenCRes.pll_div = 4)) :=
  claim_C3.1 scenC scenCRes (by decide)

/-- Counterexample to C4 as stated: at a requested system clock of
`2^31` Hz the program's PLL frequency is the u32-wrapped `0`, not the
claim's `2 * 2^31 = 2^32`. -/
theorem claim_C4_counterexample :
    pll_freq c4big = 0 ∧ specPllTarget c4big = 2 ^ 32 ∧
    pll_freq c4big ≠ specPllTarget c4big :=
  ⟨by decide, by decide, by decide⟩

/-- Claim C4, amended: the resolver's PLL input frequency, PLL output
frequency and system clock follow the spec's formulas, with the single
amendment that the doubling producing the PLL output is a 32-bit
multiplication and is therefore reduced modulo `2^32` (the stated
formulas hold verbatim whenever `2 x` the requested clock fits in
32 bits). -/
theorem claim_C4 : ∀ c : CFGR,
    pll_in_freq c = specPllIn c ∧
    pll_freq c = specPllTargetU32 c ∧
    sysclk_freq c = specSysclk c := by
  intro c
  have h1 : pll_in_freq c = specPllIn c := by
    cases hh : c.hse with
    | none => simp [pll_in_freq, hseFreq, specPllIn, hh]
    | some tf =>
      obtain ⟨t, f⟩ := tf
      simp [pll_in_freq, hseFreq, specPllIn, hh]
  have h2 : pll_freq c = specPllTargetU32 c := by
    unfold pll_freq specPllTargetU32 specPllTarget
    cases hu : c.usb_pll with
    | true => simp [USB_PLL_FREQ, U32_MOD]
    | false =>
      simp only [if_false, Bool.false_eq_true]
      cases hs : c.sysclk with
      | some s => simp [hs]
      | none =>
        simp only [hs, Option.getD_none]
        rw [show (hseFreq c).getD HSI = specPllIn c from h1]
  have h3 : sysclk_freq c = specSysclk c := by
    unfold sysclk_freq specSysclk
    cases hs : c.sysclk with
    | some s => simp
    | none => simp only [Option.getD_none, ← h2]
  exact ⟨h1, h2, h3⟩

/-- Claim C5: a fatal configuration error aborts `freeze` before any
hardware write: every fatal site precedes the first register write in
the source, so an erroring run emits an empty write/wait trace. -/
theorem claim_C5 : ∀ (c : CFGR) (e : RccError),
    (freezeTr c).2 = .error e → (freezeTr c).1 = [] := by
  intro c e h
  unfold freezeTr at h ⊢
  cases hr : resolve c with
  | error e2 => rfl
  | ok r =>
    rw [hr] at h
    exact Except.noConfusion h

/-- Witness for C5: Scenario B (crystal 8 MHz, system clock 32 MHz)
fails its ceiling check and emits no write. -/
theorem claim_C5_witness : (freezeTr scenB).1 = [] :=
  claim_C5 scenB .sysclkCeiling (by decide)

/-- Claim C9: freezing the default configuration (no oscillator, no
targets, no USB-PLL) selects the PLL bypass (multiply 2, divide 2),
divide-by-1 prescalers everywhere, 16 MHz on every bus, and a cleared
flash wait-state flag. -/
theorem claim_C9 :
    resolve CFGR.new = .ok
      { pll_in_freq := 16000000, pll_freq := 32000000
      , sysclk_freq := 16000000, pll_mul := 2, pll_div := 2
      , pll_mul_div_bits := none, hpre_bits := 7, hclk := 16000000
      , ppre1_bits := 3, ppre1 := 1, pclk1 := 16000000
      , ppre2_bits := 3, ppre2 := 1, pclk2 := 16000000
      , latency := false } ∧
    freezeTr CFGR.new =
      ([Event.writeAcr false,
        Event.writeCr none (some true) (some false),
        Event.waitHsi16Ready,
        Event.writeCfgrSw 3 3 7 1], .ok defClocks) := by
  exact ⟨by decide, by decide⟩

/-- Counterexample to C2 as stated: with hclk 32 MHz and a requested
pclk1 of 20 MHz, the integer ratio is 1 and the code chooses the
divide-by-1 code, whose result 32 MHz is *not* at or below the
requested target (divide-by-2 would be, so the chosen divider is not
the smallest one bringing the frequency at or below the target). -/
theorem claim_C2_counterexample :
    ppre1Of (resolve c2cex) = some 1 ∧
    hclkOf (resolve c2cex) = some 32000000 ∧
    ¬(∀ d hc, ppre1Of (resolve c2cex) = some d →
        hclkOf (resolve c2cex) = some hc →
        hc / d ≤ 20000000 ∧
        ∀ e, (e = 1 ∨ e = 2 ∨ e = 4 ∨ e = 8 ∨ e = 16) →
          hc / e ≤ 20000000 → d ≤ e) := by
  refine ⟨by decide, by decide, fun hcl => ?_⟩
  exact absurd (hcl 1 32000000 (by decide) (by decide)).1 (by decide)

set_option maxHeartbeats 3200000 in
/-- Claim C2, amended: the prescaler code is chosen by bucketing the
*integer* ratio `upstream / target` into the chip's fixed ranges
(1, 2, 3-5, 6-11, 12-39, ... for AHB; 1, 2, 3-5, 6-11, 12+ for APB),
which coincides with "smallest divider bringing the frequency at or
below the target" only when the target divides the upstream frequency
exactly; when no target is requested the divide-by-1 code is chosen;
in particular a ratio of 7 falls in the 6..=11 bucket and selects the
divide-by-8 code. -/
theorem claim_C2 :
    ∀ (c : CFGR) (r : Resolved), resolve c = .ok r →
      (c.hclk = none → r.hclk = r.sysclk_freq) ∧
      (∀ t, c.hclk = some t →
        (r.sysclk_freq / t = 1 → r.hclk = r.sysclk_freq) ∧
        (r.sysclk_freq / t = 2 → r.hclk = r.sysclk_freq / 2) ∧
        (3 ≤ r.sysclk_freq / t ∧ r.sysclk_freq / t ≤ 5 →
          r.hclk = r.sysclk_freq / 4) ∧
        (6 ≤ r.sysclk_freq / t ∧ r.sysclk_freq / t ≤ 11 →
          r.hclk = r.sysclk_freq / 8) ∧
        (12 ≤ r.sysclk_freq / t ∧ r.sysclk_freq / t ≤ 39 →
          r.hclk = r.sysclk_freq / 16) ∧
        (40 ≤ r.sysclk_freq / t ∧ r.sysclk_freq / t ≤ 95 →
          r.hclk = r.sysclk_freq / 32) ∧
        (96 ≤ r.sysclk_freq / t ∧ r.sysclk_freq / t ≤ 191 →
          r.hclk = r.sysclk_freq / 64) ∧
        (192 ≤ r.sysclk_freq / t ∧ r.sysclk_freq / t ≤ 383 →
          r.hclk = r.sysclk_freq / 128) ∧
        (384 ≤ r.sysclk_freq / t → r.hclk = r.sysclk_freq / 256)) ∧
      (c.pclk1 = none → r.ppre1 = 1) ∧
      (∀ t, c.pclk1 = some t →
        (r.hclk / t = 1 → r.ppre1 = 1) ∧
        (r.hclk / t = 2 → r.ppre1 = 2) ∧
        (3 ≤ r.hclk / t ∧ r.hclk / t ≤ 5 → r.ppre1 = 4) ∧
        (6 ≤ r.hclk / t ∧ r.hclk / t ≤ 11 → r.ppre1 = 8) ∧
        (12 ≤ r.hclk / t → r.ppre1 = 16)) ∧
      (c.pclk2 = none → r.ppre2 = 1) ∧
      (∀ t, c.pclk2 = some t →
        (r.hclk / t = 1 → r.ppre2 = 1) ∧
        (r.hclk / t = 2 → r.ppre2 = 2) ∧
        (3 ≤ r.hclk / t ∧ r.hclk / t ≤ 5 → r.ppre2 = 4) ∧
        (6 ≤ r.hclk / t ∧ r.hclk / t ≤ 11 → r.ppre2 = 8) ∧
        (12 ≤ r.hclk / t → r.ppre2 = 16)) := by
  intro c r h
  obtain ⟨-, hhb, hp1, hp2, -, -, -, -, -, -, hsys, -, -, hhclk, hpp1, -,
    hpp2, -, -⟩ := resolve_ok h
  refine ⟨?_, ?_, ?_, ?_, ?_, ?_⟩
  · intro hn
    have hb7 := hpre_bitsE_none hn hhb
    rw [hhclk, hb7, hsys]
    norm_num
  · intro t ht
    obtain ⟨-, hbeq⟩ := hpre_bitsE_some ht hhb
    refine ⟨?_, ?_, ?_, ?_, ?_, ?_, ?_, ?_, ?_⟩ <;> intro hx <;>
      rw [hsys] at hx ⊢ <;> rw [hhclk, hbeq] <;>
      [ rw [show hpreBits (sysclk_freq c / t) = 7 by
          unfold hpreBits; split_ifs <;> omega]
      ; rw [show hpreBits (sysclk_freq c / t) = 8 by
          unfold hpreBits; split_ifs <;> omega]
      ; rw [show hpreBits (sysclk_freq c / t) = 9 by
          unfold hpreBits; split_ifs <;> omega]
      ; rw [show hpreBits (sysclk_freq c / t) = 10 by
          unfold hpreBits; split_ifs <;> omega]
      ; rw [show hpreBits (sysclk_freq c / t) = 11 by
          unfold hpreBits; split_ifs <;> omega]
      ; rw [show hpreBits (sysclk_freq c / t) = 12 by
          unfold hpreBits; split_ifs <;> omega]
      ; rw [show hpreBits (sysclk_freq c / t) = 13 by
          unfold hpreBits; split_ifs <;> omega]
      ; rw [show hpreBits (sysclk_freq c / t) = 14 by
          unfold hpreBits; split_ifs <;> omega]
      ; rw [show hpreBits (sysclk_freq c / t) = 15 by
          unfold hpreBits; split_ifs <;> omega]] <;> norm_num
  · intro hn
    rw [hpp1, ppre1_bitsE_none hn hp1]
    norm_num
  · intro t ht
    obtain ⟨-, hbeq⟩ := ppre1_bitsE_some ht hp1
    refine ⟨?_, ?_, ?_, ?_, ?_⟩ <;> intro hx <;> rw [hpp1, hbeq] <;>
      [ rw [show ppreBits (r.hclk / t) = 3 by
          unfold ppreBits; split_ifs <;> omega]
      ; rw [show ppreBits (r.hclk / t) = 4 by
          unfold ppreBits; split_ifs <;> omega]
      ; rw [show ppreBits (r.hclk / t) = 5 by
          unfold ppreBits; split_ifs <;> omega]
      ; rw [show ppreBits (r.hclk / t) = 6 by
          unfold ppreBits; split_ifs <;> omega]
      ; rw [show ppreBits (r.hclk / t) = 7 by
          unfold ppreBits; split_ifs <;> omega]] <;> norm_num
  · intro hn
    rw [hpp2, ppre2_bitsE_none hn hp2]
    norm_num
  · intro t ht
    obtain ⟨-, hbeq⟩ := ppre2_bitsE_some ht hp2
    refine ⟨?_, ?_, ?_, ?_, ?_⟩ <;> intro hx <;> rw [hpp2, hbeq] <;>
      [ rw [show ppreBits (r.hclk / t) = 3 by
          unfold ppreBits; split_ifs <;> omega]
      ; rw [show ppreBits (r.hclk / t) = 4 by
          unfold ppreBits; split_ifs <;> omega]
      ; rw [show ppreBits (r.hclk / t) = 5 by
          unfold ppreBits; split_ifs <;> omega]
      ; rw [show ppreBits (r.hclk / t) = 6 by
          unfold ppreBits; split_ifs <;> omega]
      ; rw [show ppreBits (r.hclk / t) = 7 by
          unfold ppreBits; split_ifs <;> omega]] <;> norm_num

/-- Witness for C2 (Scenario D): at a `hclk / pclk1` ratio of 7 the
6..=11 bucket applies and the chosen APB1 prescaler ratio is 8. -/
theorem claim_C2_witness : scenDRes.ppre1 = 8 :=
  ((claim_C2 scenD scenDRes (by decide)).2.2.2.1 4571428
    (by decide)).2.2.2.1 (by decide)

/-- Counterexample to C6 as stated: Scenario C freezes successfully
with an external oscillator, yet the trace scan finds a `CR` write
that disables the internal oscillator (`hsi16on = 0`) *before* the
external oscillator's ready flag has been confirmed — the write that
enables HSE clears HSI16ON in the same register write, ahead of the
`hserdy` spin-wait. -/
theorem claim_C6_counterexample :
    (freezeTr scenC).2 = .ok (mkClocks scenCRes) ∧
    scenC.hse.isSome = true ∧
    hsiKeptUntilHseReady false (freezeTr scenC).1 = false :=
  ⟨by decide, by decide, by decide⟩

/-- Claim C6, amended: when switching to an external oscillator the
sequencer disables the internal oscillator *explicitly, in the same
`CR` write that enables the external oscillator*, and that write
immediately precedes the spin-wait on the external ready flag; the
internal oscillator is NOT kept enabled until after the ready
confirmation, and it is disabled by an explicit `0` bit rather than by
omission.  No earlier write in the trace disables it. -/
theorem claim_C6 : ∀ (c : CFGR) (evs : List Event) (cl : Clocks),
    freezeTr c = (evs, .ok cl) → c.hse.isSome = true →
    ∃ pre post pon,
      evs = pre ++ Event.writeCr pon (some false) (some true) ::
        Event.waitHseReady :: post ∧
      ∀ e ∈ pre, disablesHsi e = false := by
  intro c evs cl h hse
  obtain ⟨r, hr, hevs, -⟩ := freezeTr_ok h
  subst hevs
  cases hb : r.pll_mul_div_bits with
  | some md =>
    obtain ⟨mb, db⟩ := md
    refine ⟨[Event.writeAcr r.latency, Event.writeCr (some false) none none,
      Event.waitPllNotReady, Event.writeCfgrPll mb db true],
      [Event.waitPllReady,
       Event.modifyCfgrSw r.ppre2_bits r.ppre1_bits r.hpre_bits 3],
      some true, ?_, ?_⟩
    · unfold sequencerTrace
      rw [hb, hse]
      simp
    · intro e he
      simp only [List.mem_cons, List.not_mem_nil, or_false] at he
      rcases he with rfl | rfl | rfl | rfl <;> rfl
  | none =>
    refine ⟨[Event.writeAcr r.latency],
      [Event.writeCfgrSw r.ppre2_bits r.ppre1_bits r.hpre_bits 2],
      none, ?_, ?_⟩
    · unfold sequencerTrace
      rw [hb, hse]
      simp
    · intro e he
      simp only [List.mem_cons, List.not_mem_nil, or_false] at he
      rcases he with rfl
      rfl

/-- Witness for C6 (amended) at Scenario C: the concrete trace splits
around the enabling write followed by the ready wait, with no earlier
HSI-disabling write. -/
theorem claim_C6_witness :
    ∃ pre post pon,
      [Event.writeAcr true, Event.writeCr (some false) none none,
       Event.waitPllNotReady, Event.writeCfgrPll 3 1 true,
       Event.writeCr (some true) (some false) (some true),
       Event.waitHseReady, Event.waitPllReady,
       Event.modifyCfgrSw 3 3 7 3] =
        pre ++ Event.writeCr pon (some false) (some true) ::
          Event.waitHseReady :: post ∧
      ∀ e ∈ pre, disablesHsi e = false :=
  claim_C6 scenC
    [Event.writeAcr true, Event.writeCr (some false) none none,
     Event.waitPllNotReady, Event.writeCfgrPll 3 1 true,
     Event.writeCr (some true) (some false) (some true),
     Event.waitHseReady, Event.waitPllReady,
     Event.modifyCfgrSw 3 3 7 3]
    (mkClocks scenCRes) (by decide) (by decide)

/-- Counterexample to C7 as stated: with hclk fixed at 32 MHz, raising
the requested APB1 target from 16 MHz to 32 MHz changes the chosen
prescaler ratio from 2 to 1 — increasing the requested frequency
*decreases* the ratio, so "not smaller" is the wrong direction. -/
theorem claim_C7_counterexample :
    ppre1Of (resolve { c7base with pclk1 := some 16000000 }) = some 2 ∧
    ppre1Of (resolve { c7base with pclk1 := some 32000000 }) = some 1 ∧
    ¬(∀ a b : Nat,
        ppre1Of (resolve { c7base with pclk1 := some 16000000 }) = some a →
        ppre1Of (resolve { c7base with pclk1 := some 32000000 }) = some b →
        a ≤ b) := by
  refine ⟨by decide, by decide, fun hcl => ?_⟩
  exact absurd (hcl 2 1 (by decide) (by decide)) (by decide)

/-- Claim C7, amended: increasing a requested bus target frequency
(between two configurations differing only in that bus's target, both
of which resolve successfully) never *increases* the chosen prescaler
ratio for that bus — the ratio is antitone, not monotone, in the
requested frequency. -/
theorem claim_C7 :
    (∀ (c : CFGR) (t1 t2 : Nat) (r1 r2 : Resolved), t1 ≤ t2 →
      resolve { c with hclk := some t1 } = .ok r1 →
      resolve { c with hclk := some t2 } = .ok r2 →
      2 ^ (r2.hpre_bits - 7) ≤ 2 ^ (r1.hpre_bits - 7)) ∧
    (∀ (c : CFGR) (t1 t2 : Nat) (r1 r2 : Resolved), t1 ≤ t2 →
      resolve { c with pclk1 := some t1 } = .ok r1 →
      resolve { c with pclk1 := some t2 } = .ok r2 →
      r2.ppre1 ≤ r1.ppre1) ∧
    (∀ (c : CFGR) (t1 t2 : Nat) (r1 r2 : Resolved), t1 ≤ t2 →
      resolve { c with pclk2 := some t1 } = .ok r1 →
      resolve { c with pclk2 := some t2 } = .ok r2 →
      r2.ppre2 ≤ r1.ppre2) := by
  refine ⟨?_, ?_, ?_⟩
  · intro c t1 t2 r1 r2 hle h1 h2
    have hhb1 := (resolve_ok h1).2.1
    have hhb2 := (resolve_ok h2).2.1
    obtain ⟨hne1, hb1⟩ := hpre_bitsE_some rfl hhb1
    obtain ⟨hne2, hb2⟩ := hpre_bitsE_some rfl hhb2
    have hsame : sysclk_freq { c with hclk := some t2 } =
        sysclk_freq { c with hclk := some t1 } := rfl
    rw [hsame] at hne2 hb2
    have ht1 : 0 < t1 := by
      rcases Nat.eq_zero_or_pos t1 with h0 | h0
      · subst h0
        simp [Nat.div_zero] at hne1
      · exact h0
    have hr : sysclk_freq { c with hclk := some t1 } / t2 ≤
        sysclk_freq { c with hclk := some t1 } / t1 :=
      Nat.div_le_div_left hle ht1
    have hmono := hpreBits_mono (Nat.pos_of_ne_zero hne2) hr
    rw [hb1, hb2]
    exact Nat.pow_le_pow_right (by norm_num) (Nat.sub_le_sub_right hmono 7)
  · intro c t1 t2 r1 r2 hle h1 h2
    obtain ⟨-, hhb1, hp11, -, -, -, -, -, -, -, -, -, -, hhclk1, hpp1, -, -,
      -, -⟩ := resolve_ok h1
    obtain ⟨-, hhb2, hp12, -, -, -, -, -, -, -, -, -, -, hhclk2, hpp2, -, -,
      -, -⟩ := resolve_ok h2
    have heq : hpre_bitsE { c with pclk1 := some t2 } =
        hpre_bitsE { c with pclk1 := some t1 } := rfl
    rw [heq, hhb1] at hhb2
    have hbb : r1.hpre_bits = r2.hpre_bits := Except.ok.inj hhb2
    have hsame : sysclk_freq { c with pclk1 := some t2 } =
        sysclk_freq { c with pclk1 := some t1 } := rfl
    rw [hsame] at hhclk2
    have hhh : r2.hclk = r1.hclk := by
      rw [hhclk1, hhclk2, hbb]
    obtain ⟨hne1, hb1⟩ := ppre1_bitsE_some rfl hp11
    obtain ⟨hne2, hb2⟩ := ppre1_bitsE_some rfl hp12
    rw [hhh] at hne2 hb2
    have ht1 : 0 < t1 := by
      rcases Nat.eq_zero_or_pos t1 with h0 | h0
      · subst h0
        simp [Nat.div_zero] at hne1
      · exact h0
    have hrle : r1.hclk / t2 ≤ r1.hclk / t1 := Nat.div_le_div_left hle ht1
    have hmono := ppreBits_mono (Nat.pos_of_ne_zero hne2) hrle
    rw [hpp1, hpp2, hb1, hb2]
    exact Nat.pow_le_pow_right (by norm_num) (Nat.sub_le_sub_right hmono 3)
  · intro c t1 t2 r1 r2 hle h1 h2
    obtain ⟨-, hhb1, -, hp21, -, -, -, -, -, -, -, -, -, hhclk1, -, -, hpp1,
      -, -⟩ := resolve_ok h1
    obtain ⟨-, hhb2, -, hp22, -, -, -, -, -, -, -, -, -, hhclk2, -, -, hpp2,
      -, -⟩ := resolve_ok h2
    have heq : hpre_bitsE { c with pclk2 := some t2 } =
        hpre_bitsE { c with pclk2 := some t1 } := rfl
    rw [heq, hhb1] at hhb2
    have hbb : r1.hpre_bits = r2.hpre_bits := Except.ok.inj hhb2
    have hsame : sysclk_freq { c with pclk2 := some t2 } =
        sysclk_freq { c with pclk2 := some t1 } := rfl
    rw [hsame] at hhclk2
    have hhh : r2.hclk = r1.hclk := by
      rw [hhclk1, hhclk2, hbb]
    obtain ⟨hne1, hb1⟩ := ppre2_bitsE_some rfl hp21
    obtain ⟨hne2, hb2⟩ := ppre2_bitsE_some rfl hp22
    rw [hhh] at hne2 hb2
    have ht1 : 0 < t1 := by
      rcases Nat.eq_zero_or_pos t1 with h0 | h0
      · subst h0
        simp [Nat.div_zero] at hne1
      · exact h0
    have hrle : r1.hclk / t2 ≤ r1.hclk / t1 := Nat.div_le_div_left hle ht1
    have hmono := ppreBits_mono (Nat.pos_of_ne_zero hne2) hrle
    rw [hpp1, hpp2, hb1, hb2]
    exact Nat.pow_le_pow_right (by norm_num) (Nat.sub_le_sub_right hmono 3)

/-- Witness for C7 (amended) on the APB1 bus: raising the target from
16 MHz to 32 MHz moves the ratio from 2 down to 1. -/
theorem claim_C7_witness : c7hiRes.ppre1 ≤ c7loRes.ppre1 :=
  claim_C7.2.1 c7base 16000000 32000000 c7loRes c7hiRes (by norm_num)
    (by decide) (by decide)

/-- Claim C8: on every successful freeze, the very first hardware
write in the trace is the flash wait-state (`ACR`) write, whose flag
is set exactly when the final system clock exceeds 16 MHz, and no
flash write occurs anywhere later — hence no clock-control register
write precedes the wait-state write. -/
theorem claim_C8 : ∀ (c : CFGR) (evs : List Event) (cl : Clocks),
    freezeTr c = (evs, .ok cl) →
    ∃ rest,
      evs = Event.writeAcr (decide (16000000 < cl.sysclk)) :: rest ∧
      ∀ e ∈ rest, isFlashWrite e = false := by
  intro c evs cl h
  obtain ⟨r, hr, hevs, hcl⟩ := freezeTr_ok h
  obtain ⟨-, -, -, -, -, -, -, -, -, -, -, -, -, -, -, -, -, -, hlat⟩ :=
    resolve_ok hr
  subst hevs
  subst hcl
  have hsys : (mkClocks r).sysclk = r.sysclk_freq := rfl
  cases hb : r.pll_mul_div_bits with
  | some md =>
    obtain ⟨mb, db⟩ := md
    refine ⟨[Event.writeCr (some false) none none, Event.waitPllNotReady,
      Event.writeCfgrPll mb db c.hse.isSome,
      Event.writeCr (some true) (some !c.hse.isSome) (some c.hse.isSome),
      (if c.hse.isSome then Event.waitHseReady else Event.waitHsi16Ready),
      Event.waitPllReady,
      Event.modifyCfgrSw r.ppre2_bits r.ppre1_bits r.hpre_bits 3], ?_, ?_⟩
    · unfold sequencerTrace
      rw [hb, hlat, hsys]
    · intro e he
      simp only [List.mem_cons, List.not_mem_nil, or_false] at he
      rcases he with rfl | rfl | rfl | rfl | rfl | rfl | rfl <;>
        first | rfl | (split <;> rfl)
  | none =>
    refine ⟨[Event.writeCr none (some !c.hse.isSome) (some c.hse.isSome),
      (if c.hse.isSome then Event.waitHseReady else Event.waitHsi16Ready),
      Event.writeCfgrSw r.ppre2_bits r.ppre1_bits r.hpre_bits
        (if c.hse.isSome then 2 else 1)], ?_, ?_⟩
    · unfold sequencerTrace
      rw [hb, hlat, hsys]
    · intro e he
      simp only [List.mem_cons, List.not_mem_nil, or_false] at he
      rcases he with rfl | rfl | rfl <;> first | rfl | (split <;> rfl)

/-- Witness for C8 at the default configuration: the trace starts with
the cleared wait-state write (16 MHz does not exceed 16 MHz) and
contains no later flash write. -/
theorem claim_C8_witness :
    ∃ rest,
      [Event.writeAcr false, Event.writeCr none (some true) (some false),
       Event.waitHsi16Ready, Event.writeCfgrSw 3 3 7 1] =
        Event.writeAcr (decide (16000000 < defClocks.sysclk)) :: rest ∧
      ∀ e ∈ rest, isFlashWrite e = false :=
  claim_C8 CFGR.new
    [Event.writeAcr false, Event.writeCr none (some true) (some false),
     Event.waitHsi16Ready, Event.writeCfgrSw 3 3 7 1] defClocks (by decide)

/-- Claim C10: every snapshot a successful freeze returns is
internally consistent — the stored `ppre1`/`ppre2` are prescaler
ratios in {1,2,4,8,16} (not register codes), `pclk1 = hclk / ppre1`,
`pclk2 = hclk / ppre2`, `hclk = sysclk / 2^k` with `k ≤ 8` — and each
accessor returns exactly the stored field (a snapshot admits no
mutating operation: its only operations are these accessors). -/
theorem claim_C10 :
    (∀ (c : CFGR) (evs : List Event) (cl : Clocks),
      freezeTr c = (evs, .ok cl) →
      (cl.ppre1 = 1 ∨ cl.ppre1 = 2 ∨ cl.ppre1 = 4 ∨ cl.ppre1 = 8 ∨
        cl.ppre1 = 16) ∧
      (cl.ppre2 = 1 ∨ cl.ppre2 = 2 ∨ cl.ppre2 = 4 ∨ cl.ppre2 = 8 ∨
        cl.ppre2 = 16) ∧
      cl.pclk1 = cl.hclk / cl.ppre1 ∧
      cl.pclk2 = cl.hclk / cl.ppre2 ∧
      (∃ k, k ≤ 8 ∧ cl.hclk = cl.sysclk / 2 ^ k)) ∧
    (∀ cl : Clocks,
      Clocks.hclkGet cl = cl.hclk ∧ Clocks.pclk1Get cl = cl.pclk1 ∧
      Clocks.pclk2Get cl = cl.pclk2 ∧ Clocks.ppre1Get cl = cl.ppre1 ∧
      Clocks.ppre2Get cl = cl.ppre2 ∧ Clocks.sysclkGet cl = cl.sysclk) := by
  constructor
  · intro c evs cl h
    obtain ⟨r, hr, -, hcl⟩ := freezeTr_ok h
    subst hcl
    obtain ⟨-, hhb, hp1, hp2, -, -, -, -, -, -, hsys, -, -, hhclk, hpp1,
      hpc1, hpp2, hpc2, -⟩ := resolve_ok hr
    have hb1 := ppre1_bitsE_ok_bounds hp1
    have hb2 := ppre2_bitsE_ok_bounds hp2
    have hhbb := hpre_bitsE_ok_bounds hhb
    simp only [mkClocks]
    refine ⟨?_, ?_, hpc1, hpc2, r.hpre_bits - 7, by omega, ?_⟩
    · rw [hpp1]
      exact pow_ppre_mem hb1.1 hb1.2
    · rw [hpp2]
      exact pow_ppre_mem hb2.1 hb2.2
    · rw [← hsys] at hhclk
      exact hhclk
  · intro cl
    exact ⟨rfl, rfl, rfl, rfl, rfl, rfl⟩

/-- Witness for C10 at the default configuration's snapshot. -/
theorem claim_C10_witness :
    (defClocks.ppre1 = 1 ∨ defClocks.ppre1 = 2 ∨ defClocks.ppre1 = 4 ∨
      defClocks.ppre1 = 8 ∨ defClocks.ppre1 = 16) ∧
    (defClocks.ppre2 = 1 ∨ defClocks.ppre2 = 2 ∨ defClocks.ppre2 = 4 ∨
      defClocks.ppre2 = 8 ∨ defClocks.ppre2 = 16) ∧
    defClocks.pclk1 = defClocks.hclk / defClocks.ppre1 ∧
    defClocks.pclk2 = defClocks.hclk / defClocks.ppre2 ∧
    (∃ k, k ≤ 8 ∧ defClocks.hclk = defClocks.sysclk / 2 ^ k) :=
  claim_C10.1 CFGR.new
    [Event.writeAcr false, Event.writeCr none (some true) (some false),
     Event.waitHsi16Ready, Event.writeCfgrSw 3 3 7 1] defClocks (by decide)

end Rcc
